import Mathlib

/-
Shallow embedding of the busservice package (a single-route bus simulation).

Conventions of the embedding:
* A Go panic (explicit `panic(...)` call or a runtime slice/index fault) aborts
  the process; it is modelled by the `GoRes.panicked` constructor carrying the
  panic message.  A normal return is `GoRes.ok`.
* `time.Now().Weekday()` inside `BusCompany.GetPricing` is modelled by an
  explicit `Weekday` argument threaded through the callers.
* Go strings are modelled as Lean `String`s (lists of characters); the SSNs in
  this program are ASCII, where byte slicing and character slicing agree.
* `float64` fare amounts are modelled as `Rat`; every fare constant of the
  program (4.5, 6.0, 3.5, 5.0) is exactly representable in binary floating
  point, so rational arithmetic is faithful for them.
* A `*BusStop` reference that is only ever compared via `BusStop.Equals`
  (which consults nothing but `Name`) is modelled by its name: the
  `Destination` fields of `Passenger` and `Prospect` hold the stop name.
* `Passengers` (Go: `map[string]Passenger`, keyed by SSN via `Bus.add`) is
  modelled as a list of passengers keyed by their `SSN` field; `pstore` has
  the overwrite-on-existing-key semantics of a map assignment.
* `fmt.Printf` logging has no effect on program state and is not modelled;
  the charge record printed by `Passenger.Charge` is modelled as an explicit
  event list so that the observable accounting event is kept.
-/

/-- Result of running a piece of Go code: either a normal return or a panic
(process abort) with the panic message. -/
inductive GoRes (α : Type) where
  | ok : α → GoRes α
  | panicked : String → GoRes α
  deriving DecidableEq, Repr

/-- Sequencing of Go computations: a panic aborts everything after it. -/
def GoRes.bind {α β : Type} (m : GoRes α) (f : α → GoRes β) : GoRes β :=
  match m with
  | .ok a => f a
  | .panicked s => .panicked s

/-- Reduction of an `int` to Go's `int16` (two's complement wraparound), used
for the `currentStop` field and the `int16(len(b.stops)-1)` conversion. -/
def toInt16 (n : Int) : Int :=
  (n + 32768) % 65536 - 32768

/-- Indexing a Go slice with a (possibly negative) integer index: `none`
models the "index out of range" runtime panic. -/
def idxInt? {α : Type} (l : List α) (i : Int) : Option α :=
  if 0 ≤ i then l[i.toNat]? else none

/-- Value of a decimal digit character. -/
def digit? (c : Char) : Option Nat :=
  if '0' ≤ c ∧ c ≤ '9' then some (c.toNat - Char.toNat '0') else none

/-- Accumulating value of a run of decimal digit characters. -/
def digitsVal : Nat → List Char → Option Nat
  | acc, [] => some acc
  | acc, c :: cs =>
    match digit? c with
    | some d => digitsVal (acc * 10 + d) cs
    | none => none

/-- Value of a non-empty run of decimal digit characters. -/
def parseDigits (l : List Char) : Option Nat :=
  match l with
  | [] => none
  | _ => digitsVal 0 l

/-- Model of `strconv.ParseInt(s, 10, 8)`: an optional sign followed by a
non-empty run of decimal digits, with the int8 range check of bitSize 8.
`none` models a non-nil error return (syntax or range error). -/
def parseInt8 (s : String) : Option Int :=
  match s.data with
  | [] => none
  | '+' :: rest =>
    (parseDigits rest).bind fun n => if (n : Int) ≤ 127 then some (n : Int) else none
  | '-' :: rest =>
    (parseDigits rest).bind fun n => if (n : Int) ≤ 128 then some (-(n : Int)) else none
  | l =>
    (parseDigits l).bind fun n => if (n : Int) ≤ 127 then some (n : Int) else none

/-- Last two characters of a string: the slice `s[len(s)-2:]`. -/
def lastTwo (s : String) : String :=
  ⟨s.data.drop (s.data.length - 2)⟩

/-- Minimum age from which a Passenger is considered a senior. -/
def SeniorAge : Int := 65

/-- A bus passenger, identified by SSN.  `Destination` holds the name of the
destination stop (the only part of the `*BusStop` that is ever compared). -/
structure Passenger where
  SSN : String
  SeatNumber : Nat
  Destination : String
  HasValidTicket : Bool
  deriving DecidableEq, Repr

/-- An observable charge record: who was charged and how much. -/
abbrev ChargeEvent := String × Rat

/-- Model of `Passenger.Charge`: a no-op on an already ticketed passenger;
otherwise emits a charge event and returns a copy with a valid ticket. -/
def Passenger.Charge (p : Passenger) (amount : Rat) : Passenger × List ChargeEvent :=
  if p.HasValidTicket then (p, [])
  else ({ p with HasValidTicket := true }, [(p.SSN, amount)])

/-- Model of `Passenger.IsSenior`: slices the last two characters of the SSN
(a runtime panic when the SSN is shorter than two characters), parses them
with `strconv.ParseInt(_, 10, 8)` and panics on a parse error; otherwise the
passenger is senior iff the parsed age is at least `SeniorAge`. -/
def Passenger.IsSenior (p : Passenger) : GoRes Bool :=
  if p.SSN.data.length < 2 then .panicked ("slice bounds out of range")
  else
    match parseInt8 (lastTwo p.SSN) with
    | none => .panicked ("invalid SSN: " ++ p.SSN)
    | some age => .ok (decide (SeniorAge ≤ age))

/-- Weekday pricing: EUR 4.5 for seniors, EUR 6 otherwise (panics propagate
from the senior check). -/
def WorkdayPricing (p : Passenger) : GoRes Rat :=
  GoRes.bind p.IsSenior fun senior =>
    if senior then .ok (4.5 : Rat) else .ok (6.0 : Rat)

/-- Weekend pricing: EUR 3.5 for seniors, EUR 5 otherwise. -/
def WeekendPricing (p : Passenger) : GoRes Rat :=
  GoRes.bind p.IsSenior fun senior =>
    if senior then .ok (3.5 : Rat) else .ok (5.0 : Rat)

/-- Ticket price calculator; like any Go function it may panic. -/
abbrev PriceCalculator := Passenger → GoRes Rat

/-- Day of the week, the value `time.Now().Weekday()` is modelled by. -/
inductive Weekday where
  | monday | tuesday | wednesday | thursday | friday | saturday | sunday
  deriving DecidableEq, Repr

/-- The bus company (a string in the source). -/
abbrev BusCompany := String

/-- Model of `BusCompany.GetPricing`, with the wall-clock weekday passed in
explicitly: weekend pricing on Saturday and Sunday, workday pricing else. -/
def BusCompany.GetPricing (_c : BusCompany) (wd : Weekday) : PriceCalculator :=
  if wd = .saturday ∨ wd = .sunday then WeekendPricing else WorkdayPricing

/-- The passenger set of a bus: `map[string]Passenger` keyed by SSN. -/
abbrev Passengers := List Passenger

/-- Model of `NewPassengerSet`. -/
def NewPassengerSet : Passengers := []

/-- Map assignment `m[p.SSN] = p`: overwrite the entry with the same SSN if
one exists, otherwise add the passenger. -/
def pstore (l : Passengers) (p : Passenger) : Passengers :=
  if l.any (fun q => decide (q.SSN = p.SSN)) then
    l.map (fun q => if q.SSN = p.SSN then p else q)
  else l ++ [p]

/-- Map deletion `delete(m, ssn)`. -/
def premove (l : Passengers) (ssn : String) : Passengers :=
  l.filter (fun q => decide (¬ q.SSN = ssn))

/-- Model of `Bus.VisitPassengers` combined with `Bus.Remove` on every visited
passenger, as the terminal branch of `Bus.Go` does: every entry of the set is
visited and deleted. -/
def removeAllVisit (m : Passengers) : Passengers :=
  m.foldl (fun acc p => premove acc p.SSN) m

/-- A potential passenger waiting at a stop; `Destination` holds the name of
the destination stop. -/
structure Prospect where
  SSN : String
  Destination : String
  deriving DecidableEq, Repr

/-- Model of `Prospect.ToPassenger`: same SSN and destination, zero seat
number and no valid ticket (Go zero values). -/
def Prospect.ToPassenger (p : Prospect) : Passenger :=
  { SSN := p.SSN, SeatNumber := 0, Destination := p.Destination, HasValidTicket := false }

/-- A bus stop: a name and the waiting prospects.  The `busses` back-reference
list is used only by `NotifyProspectArrival`, which no claim touches, and is
omitted. -/
structure BusStop where
  Name : String
  prospects : List Prospect
  deriving DecidableEq, Repr

/-- Model of `BusStop.Equals`: stop equality is name equality. -/
def BusStop.Equals (b s : BusStop) : Bool :=
  decide (b.Name = s.Name)

/-- The bus: company, name, owned passenger set, ordered route and current
position index (`int16` in the source, kept as an `Int` reduced with
`toInt16` wherever the source touches it). -/
structure Bus where
  Company : BusCompany
  name : String
  passengers : Passengers
  stops : List BusStop
  currentStop : Int
  deriving DecidableEq, Repr

/-- Model of `NewBus`: empty passenger set, empty route, position -1. -/
def NewBus (nm : String) : Bus :=
  { Company := "", name := nm, passengers := NewPassengerSet, stops := [], currentStop := -1 }

/-- Model of `Bus.add`: store the passenger under its SSN. -/
def Bus.add (b : Bus) (p : Passenger) : Bus :=
  { b with passengers := pstore b.passengers p }

/-- Model of `Bus.Board`: an already ticketed passenger boards as is;
otherwise the fare is computed by `chargeFn` (which may panic), the passenger
is charged, and the charged copy boards.  Both branches set `allowed = true`
in the source, so a normal return always reports `true`. -/
def Bus.Board (b : Bus) (p : Passenger) (chargeFn : PriceCalculator) : GoRes (Bus × Bool) :=
  if p.HasValidTicket then .ok (b.add p, true)
  else
    GoRes.bind (chargeFn p) fun amount =>
      .ok (b.add (p.Charge amount).1, true)

/-- Model of `Bus.Remove`: delete the passenger's SSN from the set. -/
def Bus.Remove (b : Bus) (p : Passenger) : Bus :=
  { b with passengers := premove b.passengers p.SSN }

/-- Model of `Bus.AddStop`: append to the route. -/
def Bus.AddStop (b : Bus) (s : BusStop) : Bus :=
  { b with stops := b.stops ++ [s] }

/-- Model of `Bus.StopsAt`: route membership of a stop, compared by name
(`BusStop.Equals` consults only the name, so the argument is the name). -/
def Bus.StopsAt (b : Bus) (destName : String) : Bool :=
  b.stops.any (fun s => decide (s.Name = destName))

/-- Model of `Bus.CurrentStop`: `b.stops[b.currentStop]`, an index-out-of-range
panic when the position is -1 or past the end of the route. -/
def Bus.CurrentStop (b : Bus) : GoRes BusStop :=
  match idxInt? b.stops b.currentStop with
  | some s => .ok s
  | none => .panicked ("index out of range")

/-- One iteration of the alighting loop of `BusStop.NotifyBusArrival`: the
visited passenger is removed when the bus's current stop equals (by name) the
passenger's destination.  `bus.CurrentStop()` is called inside the loop body,
so its panic fires only when there is a passenger to visit. -/
def alightStep (b : Bus) (acc : GoRes Passengers) (p : Passenger) : GoRes Passengers :=
  GoRes.bind acc fun ps =>
    GoRes.bind b.CurrentStop fun curr =>
      .ok (if curr.Name = p.Destination then premove ps p.SSN else ps)

/-- One iteration of the boarding loop of `BusStop.NotifyBusArrival`: a
prospect whose destination is on the route is converted to a passenger and
boarded with the company's pricing of the day; the boolean result of `Board`
is discarded, as in the source. -/
def boardStep (wd : Weekday) (acc : GoRes Bus) (w : Prospect) : GoRes Bus :=
  GoRes.bind acc fun bus =>
    if bus.StopsAt w.Destination then
      GoRes.bind (bus.Board w.ToPassenger (BusCompany.GetPricing bus.Company wd)) fun r =>
        .ok r.1
    else .ok bus

/-- Model of `BusStop.NotifyBusArrival`: phase 1 alights every passenger whose
destination is the current stop (visiting a snapshot of the set and deleting
from the live set, as Go's delete-during-range does); phase 2 boards every
waiting prospect whose destination is on the route. -/
def BusStop.NotifyBusArrival (stop : BusStop) (wd : Weekday) (b : Bus) : GoRes Bus :=
  GoRes.bind (b.passengers.foldl (alightStep b) (.ok b.passengers)) fun ps =>
    stop.prospects.foldl (boardStep wd) (.ok { b with passengers := ps })

/-- Model of `Bus.Go`: increment the int16 position; if it equals
`int16(len(stops)-1)` remove every remaining passenger and report `false`;
otherwise index the route (an out-of-range panic when the index is invalid),
run the stop's arrival protocol, and report whether the position is still
strictly below the last index. -/
def Bus.Go (wd : Weekday) (b : Bus) : GoRes (Bus × Bool) :=
  let b1 : Bus := { b with currentStop := toInt16 (b.currentStop + 1) }
  let lastIndex : Int := toInt16 ((b1.stops.length : Int) - 1)
  if b1.currentStop = lastIndex then
    .ok ({ b1 with passengers := removeAllVisit b1.passengers }, false)
  else
    match idxInt? b1.stops b1.currentStop with
    | none => .panicked ("index out of range")
    | some curr =>
      GoRes.bind (curr.NotifyBusArrival wd b1) fun b2 =>
        .ok (b2, decide (b2.currentStop < lastIndex))

/-! Basic lemmas about the embedding. -/

@[simp]
theorem GoRes.bind_ok {α β : Type} (a : α) (f : α → GoRes β) :
    GoRes.bind (.ok a) f = f a := rfl

@[simp]
theorem GoRes.bind_panicked {α β : Type} (s : String) (f : α → GoRes β) :
    GoRes.bind (.panicked s) f = .panicked s := rfl

theorem toInt16_le (n : Int) (h : -32768 ≤ n) : toInt16 n ≤ n := by
  unfold toInt16; omega

theorem toInt16_eq_self (n : Int) (h1 : -32768 ≤ n) (h2 : n ≤ 32767) :
    toInt16 n = n := by
  unfold toInt16; omega

theorem idxInt?_some {α : Type} {l : List α} {i : Int} {x : α}
    (h : idxInt? l i = some x) : 0 ≤ i ∧ i < (l.length : Int) := by
  unfold idxInt? at h
  split at h
  · rename_i h0
    refine ⟨h0, ?_⟩
    have hlt : i.toNat < l.length := by
      by_contra hge
      rw [List.getElem?_eq_none (by omega)] at h
      exact Option.noConfusion h
    omega
  · exact Option.noConfusion h

theorem idxInt?_none {α : Type} {l : List α} {i : Int}
    (h : i < 0 ∨ (l.length : Int) ≤ i) : idxInt? l i = none := by
  unfold idxInt?
  split
  · rename_i h0
    exact List.getElem?_eq_none (by omega)
  · rfl

theorem mem_premove {l : Passengers} {ssn : String} {q : Passenger} :
    q ∈ premove l ssn ↔ q ∈ l ∧ ¬ q.SSN = ssn := by
  simp [premove, List.mem_filter]

theorem mem_pstore {l : Passengers} {p q : Passenger}
    (h : q ∈ pstore l p) : q ∈ l ∨ q = p := by
  unfold pstore at h
  split at h
  · rcases List.mem_map.mp h with ⟨r, hr, hrq⟩
    by_cases hs : r.SSN = p.SSN
    · right; rw [if_pos hs] at hrq; exact hrq.symm
    · left; rw [if_neg hs] at hrq; exact hrq ▸ hr
  · rcases List.mem_append.mp h with h' | h'
    · exact Or.inl h'
    · exact Or.inr (List.mem_singleton.mp h')

theorem self_mem_pstore (l : Passengers) (p : Passenger) : p ∈ pstore l p := by
  unfold pstore
  split
  · rename_i hany
    rcases List.any_eq_true.mp hany with ⟨r, hr, hrs⟩
    rw [decide_eq_true_eq] at hrs
    exact List.mem_map.mpr ⟨r, hr, by rw [if_pos hrs]⟩
  · exact List.mem_append.mpr (Or.inr (List.mem_singleton.mpr rfl))

theorem removeAllVisit_fold_mem {q : Passenger} :
    ∀ (l acc : Passengers), q ∈ l.foldl (fun acc p => premove acc p.SSN) acc →
      q ∈ acc ∧ ∀ p ∈ l, ¬ q.SSN = p.SSN := by
  intro l
  induction l with
  | nil => intro acc h; exact ⟨h, by simp⟩
  | cons p l ih =>
    intro acc h
    have h' := ih (premove acc p.SSN) h
    rcases mem_premove.mp h'.1 with ⟨hacc, hne⟩
    refine ⟨hacc, ?_⟩
    intro r hr
    rcases List.mem_cons.mp hr with rfl | hr'
    · exact hne
    · exact h'.2 r hr'

theorem removeAllVisit_eq_nil (l : Passengers) : removeAllVisit l = [] := by
  rw [List.eq_nil_iff_forall_not_mem]
  intro q hq
  have h := removeAllVisit_fold_mem l l hq
  exact h.2 q h.1 rfl

/-! Lemmas about the arrival protocol. -/

theorem foldl_panicked {α σ : Type} (step : GoRes σ → α → GoRes σ)
    (hstep : ∀ s x, step (.panicked s) x = .panicked s) (msg : String) :
    ∀ l : List α, l.foldl step (.panicked msg) = .panicked msg := by
  intro l
  induction l with
  | nil => rfl
  | cons x l ih => rw [List.foldl_cons, hstep]; exact ih

theorem alightStep_panicked (b : Bus) (s : String) (p : Passenger) :
    alightStep b (.panicked s) p = .panicked s := rfl

theorem boardStep_panicked (wd : Weekday) (s : String) (w : Prospect) :
    boardStep wd (.panicked s) w = .panicked s := rfl

theorem alightFold_sub (b : Bus) {q : Passenger} :
    ∀ (entries : List Passenger) (start res : Passengers),
      entries.foldl (alightStep b) (.ok start) = .ok res → q ∈ res → q ∈ start := by
  intro entries
  induction entries with
  | nil =>
    intro start res h hq
    rw [List.foldl_nil] at h
    cases h
    exact hq
  | cons p entries ih =>
    intro start res h hq
    rw [List.foldl_cons] at h
    cases hcs : b.CurrentStop with
    | panicked s =>
      rw [show alightStep b (.ok start) p = .panicked s by
            simp [alightStep, hcs],
          foldl_panicked _ (alightStep_panicked b) s] at h
      exact GoRes.noConfusion h
    | ok curr =>
      rw [show alightStep b (.ok start) p =
            .ok (if curr.Name = p.Destination then premove start p.SSN else start) by
            simp [alightStep, hcs]] at h
      have hsub := ih _ res h hq
      split at hsub
      · exact (mem_premove.mp hsub).1
      · exact hsub

theorem stopsAt_congr {b1 b2 : Bus} (h : b1.stops = b2.stops) (d : String) :
    b1.StopsAt d = b2.StopsAt d := by
  simp [Bus.StopsAt, h]

theorem board_ok_spec {b : Bus} {p : Passenger} {fn : PriceCalculator}
    {b2 : Bus} {t : Bool} (h : b.Board p fn = .ok (b2, t)) :
    t = true ∧ b2.stops = b.stops ∧ b2.currentStop = b.currentStop ∧
      b2.Company = b.Company ∧
      ∃ p2, p2.SSN = p.SSN ∧ b2.passengers = pstore b.passengers p2 := by
  unfold Bus.Board at h
  split at h
  · cases h
    exact ⟨rfl, rfl, rfl, rfl, p, rfl, rfl⟩
  · cases hfn : fn p with
    | panicked s => rw [hfn, GoRes.bind_panicked] at h; exact GoRes.noConfusion h
    | ok amount =>
      rw [hfn, GoRes.bind_ok] at h
      cases h
      refine ⟨rfl, rfl, rfl, rfl, (p.Charge amount).1, ?_, rfl⟩
      unfold Passenger.Charge
      split <;> rfl

theorem boardFold_spec (wd : Weekday) :
    ∀ (ws : List Prospect) (b0 b' : Bus),
      ws.foldl (boardStep wd) (.ok b0) = .ok b' →
      b'.stops = b0.stops ∧ b'.currentStop = b0.currentStop ∧
        ∀ q ∈ b'.passengers, q ∈ b0.passengers ∨
          ∃ w ∈ ws, q.SSN = w.SSN ∧ b0.StopsAt w.Destination = true := by
  intro ws
  induction ws with
  | nil =>
    intro b0 b' h
    rw [List.foldl_nil] at h
    cases h
    exact ⟨rfl, rfl, fun q hq => Or.inl hq⟩
  | cons w ws ih =>
    intro b0 b' h
    rw [List.foldl_cons] at h
    by_cases hS : b0.StopsAt w.Destination
    · rw [show boardStep wd (.ok b0) w =
            GoRes.bind (b0.Board w.ToPassenger (BusCompany.GetPricing b0.Company wd))
              (fun r => .ok r.1) by simp [boardStep, hS]] at h
      cases hB : b0.Board w.ToPassenger (BusCompany.GetPricing b0.Company wd) with
      | panicked s =>
        rw [hB, GoRes.bind_panicked, foldl_panicked _ (boardStep_panicked wd) s] at h
        exact GoRes.noConfusion h
      | ok r =>
        rw [hB, GoRes.bind_ok] at h
        obtain ⟨b1, t⟩ := r
        have hspec := board_ok_spec hB
        obtain ⟨-, hstops, hcur, -, p2, hp2ssn, hpass⟩ := hspec
        have hrec := ih b1 b' h
        refine ⟨hrec.1.trans hstops, hrec.2.1.trans hcur, ?_⟩
        intro q hq
        rcases hrec.2.2 q hq with hmem | ⟨w', hw', hssn, hstop⟩
        · rw [hpass] at hmem
          rcases mem_pstore hmem with hmem' | rfl
          · exact Or.inl hmem'
          · refine Or.inr ⟨w, List.mem_cons_self w ws, ?_, hS⟩
            rw [hp2ssn]
            rfl
        · refine Or.inr ⟨w', List.mem_cons_of_mem w hw', hssn, ?_⟩
          rw [← stopsAt_congr hstops w'.Destination]
          exact hstop
    · rw [show boardStep wd (.ok b0) w = .ok b0 by simp [boardStep, hS]] at h
      have hrec := ih b0 b' h
      refine ⟨hrec.1, hrec.2.1, ?_⟩
      intro q hq
      rcases hrec.2.2 q hq with hmem | ⟨w', hw', hssn, hstop⟩
      · exact Or.inl hmem
      · exact Or.inr ⟨w', List.mem_cons_of_mem w hw', hssn, hstop⟩

theorem notify_ok_spec {stop : BusStop} {wd : Weekday} {b b' : Bus}
    (h : stop.NotifyBusArrival wd b = .ok b') :
    b'.stops = b.stops ∧ b'.currentStop = b.currentStop ∧
      ∀ q ∈ b'.passengers, q ∈ b.passengers ∨
        ∃ w ∈ stop.prospects, q.SSN = w.SSN ∧ b.StopsAt w.Destination = true := by
  unfold BusStop.NotifyBusArrival at h
  cases ha : b.passengers.foldl (alightStep b) (.ok b.passengers) with
  | panicked s => rw [ha, GoRes.bind_panicked] at h; exact GoRes.noConfusion h
  | ok ps =>
    rw [ha, GoRes.bind_ok] at h
    have hfold := boardFold_spec wd stop.prospects { b with passengers := ps } b' h
    refine ⟨hfold.1, hfold.2.1, ?_⟩
    intro q hq
    rcases hfold.2.2 q hq with hmem | ⟨w, hw, hssn, hstop⟩
    · exact Or.inl (alightFold_sub b b.passengers b.passengers ps ha hmem)
    · exact Or.inr ⟨w, hw, hssn, hstop⟩

/-! Claim theorems. -/

/-- Claim C1: when `Go` moves the position index to the route's last index
(route length - 1), every remaining passenger is forcibly removed (no
alighting checks), the passenger set is left empty, and the call reports that
no further stops remain (returns `false`). -/
theorem claim_C1_terminal (wd : Weekday) (b : Bus)
    (h : b.currentStop + 1 = (b.stops.length : Int) - 1) :
    ∃ b', Bus.Go wd b = .ok (b', false) ∧ b'.passengers = [] ∧
      b'.stops = b.stops ∧ b'.currentStop = toInt16 (b.currentStop + 1) := by
  refine ⟨{ b with currentStop := toInt16 (b.currentStop + 1)
                   passengers := removeAllVisit b.passengers },
    ?_, removeAllVisit_eq_nil _, rfl, rfl⟩
  simp only [Bus.Go]
  rw [h]
  simp

/-- Claim C1 witness: a two-stop bus one step before the terminal stop, with
two riders aboard, is emptied by the next `Go` which reports `false`. -/
theorem claim_C1_witness :
    ∃ b', Bus.Go Weekday.monday
        ⟨"", "Bus1", [⟨"p1", 1, "S2", true⟩, ⟨"p2", 2, "S9", false⟩],
          [⟨"S1", []⟩, ⟨"S2", []⟩], 0⟩ = .ok (b', false) ∧
      b'.passengers = [] ∧ b'.stops = [⟨"S1", []⟩, ⟨"S2", []⟩] ∧
      b'.currentStop = toInt16 (0 + 1) :=
  claim_C1_terminal Weekday.monday
    ⟨"", "Bus1", [⟨"p1", 1, "S2", true⟩, ⟨"p2", 2, "S9", false⟩],
      [⟨"S1", []⟩, ⟨"S2", []⟩], 0⟩ (by decide)

/-- Claim C2: on a bus arrival at a stop, a waiting prospect is converted,
charged and added to the bus's passenger set only if the bus's route contains
the prospect's destination stop (membership by stop name): every passenger of
the resulting set was either already aboard or is a prospect of the stop whose
destination passes `StopsAt`. -/
theorem claim_C2_board_guard (stop : BusStop) (wd : Weekday) (b b' : Bus)
    (h : stop.NotifyBusArrival wd b = .ok b') :
    ∀ q ∈ b'.passengers, q ∈ b.passengers ∨
      ∃ w ∈ stop.prospects, q.SSN = w.SSN ∧ b.StopsAt w.Destination = true :=
  (notify_ok_spec h).2.2

/-- Claim C2 witness: at a stop with one reachable and one unreachable
prospect, the rider boarded by the arrival protocol is a prospect of the stop
whose destination is on the route. -/
theorem claim_C2_witness :
    (⟨"11-22", 0, "The Village", true⟩ : Passenger) ∈ ([] : Passengers) ∨
      ∃ w ∈ [(⟨"11-22", "The Village"⟩ : Prospect), ⟨"99-88", "Nowhere"⟩],
        Passenger.SSN ⟨"11-22", 0, "The Village", true⟩ = w.SSN ∧
          Bus.StopsAt ⟨"Acme", "Express", [], [⟨"Downtown", []⟩, ⟨"The Village", []⟩], 0⟩
            w.Destination = true :=
  claim_C2_board_guard ⟨"Downtown", [⟨"11-22", "The Village"⟩, ⟨"99-88", "Nowhere"⟩]⟩
    Weekday.monday ⟨"Acme", "Express", [], [⟨"Downtown", []⟩, ⟨"The Village", []⟩], 0⟩
    ⟨"Acme", "Express", [⟨"11-22", 0, "The Village", true⟩],
      [⟨"Downtown", []⟩, ⟨"The Village", []⟩], 0⟩ (by decide)
    ⟨"11-22", 0, "The Village", true⟩ (by decide)

/-- Claim C3 counterexample: on an identifier whose last two characters do not
parse as a base-10 integer, `IsSenior` does not surface a recoverable error
result: it panics (process abort), refuting the claim as stated. -/
theorem claim_C3_counterexample :
    Passenger.IsSenior ⟨"ab", 0, "", false⟩ = .panicked ("invalid SSN: ab") := by
  decide

/-- Claim C3 amended: for every rider whose identifier has at least two
characters and whose last two characters do not parse, `IsSenior` panics with
the message `invalid SSN: ` followed by the identifier — a process abort, not
a recoverable error value. -/
theorem claim_C3_amended (p : Passenger)
    (h1 : 2 ≤ p.SSN.data.length) (h2 : parseInt8 (lastTwo p.SSN) = none) :
    p.IsSenior = .panicked ("invalid SSN: " ++ p.SSN) := by
  unfold Passenger.IsSenior
  rw [if_neg (by omega), h2]

/-- Claim C3 amended witness: the malformed identifier `xy` makes `IsSenior`
panic. -/
theorem claim_C3_amended_witness :
    Passenger.IsSenior ⟨"xy", 0, "", false⟩ = .panicked ("invalid SSN: " ++ "xy") :=
  claim_C3_amended ⟨"xy", 0, "", false⟩ (by decide) (by decide)

/-- Claim C4 amended: every normally returning `Go` sets the position index to
the old index plus one reduced to int16 (two's complement wraparound), the new
index never exceeds route length - 1, and whenever old index + 1 fits in int16
(in particular for every route of fewer than 32769 stops) the increase is
exactly one. -/
theorem claim_C4_go_step (wd : Weekday) (b b' : Bus) (more : Bool)
    (h : Bus.Go wd b = .ok (b', more)) :
    b'.stops = b.stops ∧ b'.currentStop = toInt16 (b.currentStop + 1) ∧
      b'.currentStop ≤ (b.stops.length : Int) - 1 ∧
      (-32768 ≤ b.currentStop + 1 → b.currentStop + 1 ≤ 32767 →
        b'.currentStop = b.currentStop + 1) := by
  simp only [Bus.Go] at h
  split at h
  · rename_i hc
    cases h
    refine ⟨rfl, rfl, ?_, ?_⟩
    · have hge : (-32768 : Int) ≤ (b.stops.length : Int) - 1 := by omega
      calc toInt16 (b.currentStop + 1) = toInt16 ((b.stops.length : Int) - 1) := hc
        _ ≤ (b.stops.length : Int) - 1 := toInt16_le _ hge
    · intro h1 h2
      exact toInt16_eq_self _ h1 h2
  · rename_i hc
    split at h
    · exact GoRes.noConfusion h
    · rename_i curr hidx
      cases hn : curr.NotifyBusArrival wd { b with currentStop := toInt16 (b.currentStop + 1) } with
      | panicked s => rw [hn, GoRes.bind_panicked] at h; exact GoRes.noConfusion h
      | ok b2 =>
        rw [hn, GoRes.bind_ok] at h
        cases h
        have hspec := notify_ok_spec hn
        have hb : (0 : Int) ≤ toInt16 (b.currentStop + 1) ∧
            toInt16 (b.currentStop + 1) < (b.stops.length : Int) := idxInt?_some hidx
        have h21 : b'.currentStop = toInt16 (b.currentStop + 1) := hspec.2.1
        refine ⟨hspec.1, h21, ?_, ?_⟩
        · rw [h21]; omega
        · intro h1 h2
          rw [h21]
          exact toInt16_eq_self _ h1 h2

/-- Claim C4 witness: a fresh two-stop bus advances from position -1 to
position 0, an increase of exactly one. -/
theorem claim_C4_witness :
    ∃ b' more, Bus.Go Weekday.monday ⟨"", "B", [], [⟨"A", []⟩, ⟨"C", []⟩], -1⟩ =
        .ok (b', more) ∧ b'.currentStop = -1 + 1 :=
  ⟨⟨"", "B", [], [⟨"A", []⟩, ⟨"C", []⟩], 0⟩, true, by decide,
    (claim_C4_go_step Weekday.monday ⟨"", "B", [], [⟨"A", []⟩, ⟨"C", []⟩], -1⟩
      ⟨"", "B", [], [⟨"A", []⟩, ⟨"C", []⟩], 0⟩ true (by decide)).2.2.2
      (by decide) (by decide)⟩

set_option maxHeartbeats 1000000 in
/-- Claim C4 counterexample: on a route of 32769 stops, the `int16` position
index wraps: a `Go` from position 32767 returns normally with position
-32768, not 32768, refuting the exactly-one increase as stated. -/
theorem claim_C4_counterexample :
    ∃ b' more, Bus.Go Weekday.monday ⟨"", "B", [], List.replicate 32769 ⟨"S", []⟩, 32767⟩ =
        .ok (b', more) ∧ ¬ b'.currentStop = 32767 + 1 := by
  refine ⟨⟨"", "B", [], List.replicate 32769 ⟨"S", []⟩, -32768⟩, false, ?_, by decide⟩
  have h1 : toInt16 (32767 + 1) = -32768 := by decide
  have h2 : toInt16 ((32769 : Int) - 1) = -32768 := by decide
  simp only [Bus.Go, List.length_replicate, Nat.cast_ofNat, h1, h2, if_pos]
  rfl

/-- Claim C5 counterexample: on an empty route the first `Go` does not report
termination; it panics with an index-out-of-range runtime error (the check
compares new position 0 with lastIndex -1, which differ, and then indexes the
empty route), refuting the claim as stated. -/
theorem claim_C5_counterexample :
    Bus.Go Weekday.monday (NewBus "Express Line") = .panicked ("index out of range") := by
  decide

/-- Claim C5 amended: for every vehicle fresh from `NewBus` (empty route,
position -1) and every weekday, the first `Go` does not satisfy the terminal
condition; it aborts with an index-out-of-range panic on the empty route, and
no boarding ever occurs. -/
theorem claim_C5_empty_route (wd : Weekday) (nm : String) :
    Bus.Go wd (NewBus nm) = .panicked ("index out of range") := by
  simp only [Bus.Go, NewBus, NewPassengerSet]
  norm_num [toInt16, idxInt?]

/-- Claim C6: charging a rider whose ticket-valid flag is already true returns
the rider unchanged and emits no charge event, for every amount. -/
theorem claim_C6_charge (p : Passenger) (a : Rat)
    (h : p.HasValidTicket = true) : p.Charge a = (p, []) := by
  unfold Passenger.Charge
  rw [if_pos h]

/-- Claim C6 witness: charging a concrete already-ticketed rider 4.5 is a
no-op with no event. -/
theorem claim_C6_witness :
    Passenger.Charge ⟨"11-22", 3, "X", true⟩ (4.5 : Rat) = (⟨"11-22", 3, "X", true⟩, []) :=
  claim_C6_charge ⟨"11-22", 3, "X", true⟩ (4.5 : Rat) rfl

/-- Claim C7: wherever senior classification is defined (returns normally),
weekday pricing yields 4.5 for seniors and 6.0 otherwise, and weekend pricing
yields 3.5 for seniors and 5.0 otherwise. -/
theorem claim_C7_pricing (p : Passenger) (s : Bool) (h : p.IsSenior = .ok s) :
    WorkdayPricing p = .ok (if s then (4.5 : Rat) else 6.0) ∧
      WeekendPricing p = .ok (if s then (3.5 : Rat) else 5.0) := by
  unfold WorkdayPricing WeekendPricing
  rw [h]
  cases s <;> simp [GoRes.bind]

/-- Claim C7 witness: a rider with trailing age digits 67 is senior and is
priced 4.5 on weekdays and 3.5 on weekends. -/
theorem claim_C7_witness :
    Passenger.IsSenior ⟨"11223322-67", 0, "The Village", false⟩ = .ok true ∧
      WorkdayPricing ⟨"11223322-67", 0, "The Village", false⟩ = .ok (4.5 : Rat) ∧
      WeekendPricing ⟨"11223322-67", 0, "The Village", false⟩ = .ok (3.5 : Rat) :=
  ⟨by decide, (claim_C7_pricing _ true (by decide)).1, (claim_C7_pricing _ true (by decide)).2⟩

/-- Claim C8: for every rider whose identifier's last two characters parse as
a base-10 integer n, `IsSenior` returns true if and only if n is at least
65. -/
theorem claim_C8_isSenior_iff (p : Passenger) (n : Int)
    (h1 : 2 ≤ p.SSN.data.length) (h2 : parseInt8 (lastTwo p.SSN) = some n) :
    (p.IsSenior = .ok true ↔ 65 ≤ n) := by
  unfold Passenger.IsSenior
  rw [if_neg (by omega), h2]
  simp [SeniorAge]

/-- Claim C8 witness: the identifier `11223322-67` parses to 67 and is
classified senior. -/
theorem claim_C8_witness :
    2 ≤ (Passenger.mk "11223322-67" 0 "" false).SSN.data.length ∧
      parseInt8 (lastTwo (Passenger.mk "11223322-67" 0 "" false).SSN) = some 67 ∧
      (Passenger.IsSenior ⟨"11223322-67", 0, "", false⟩ = .ok true ↔ (65 : Int) ≤ 67) :=
  ⟨by decide, by decide,
    claim_C8_isSenior_iff ⟨"11223322-67", 0, "", false⟩ 67 (by decide) (by decide)⟩

/-- Claim C9 counterexample: `CurrentStop` on a fresh bus (position -1) does
not yield an explicit recoverable error value: it panics (process abort),
refuting the claim as stated. -/
theorem claim_C9_counterexample :
    Bus.CurrentStop (NewBus "Express Line") = .panicked ("index out of range") := by
  decide

/-- Claim C9 amended: invoking `CurrentStop` when the position index is
negative (e.g. -1 before the first advance) or at least the route length
triggers an index-out-of-range panic that aborts the process, rather than
returning an explicit error value. -/
theorem claim_C9_currentStop_panics (b : Bus)
    (h : b.currentStop < 0 ∨ (b.stops.length : Int) ≤ b.currentStop) :
    b.CurrentStop = .panicked ("index out of range") := by
  unfold Bus.CurrentStop
  rw [idxInt?_none h]

/-- Claim C9 amended witness: a fresh bus has position -1 and `CurrentStop`
panics on it. -/
theorem claim_C9_witness :
    Bus.CurrentStop (NewBus "Night Line") = .panicked ("index out of range") :=
  claim_C9_currentStop_panics (NewBus "Night Line") (Or.inl (by decide))

/-- Claim C10 counterexample: `Board` does not return true for every
passenger and price calculator: an unticketed passenger with a malformed
identifier makes the workday price calculator panic inside `Board`, so
`Board` aborts instead of returning, refuting the claim as stated. -/
theorem claim_C10_counterexample :
    Bus.Board (NewBus "B") ⟨"ab", 0, "X", false⟩ WorkdayPricing =
      .panicked ("invalid SSN: ab") := by
  decide

/-- Claim C10 amended: whenever the passenger already holds a valid ticket or
the price calculator returns normally on the passenger, `Board` returns true
and the passenger (under its SSN) ends up in the bus's passenger set; a
panicking price calculator aborts the process instead. -/
theorem claim_C10_board_ok (b : Bus) (p : Passenger) (fn : PriceCalculator)
    (h : p.HasValidTicket = true ∨ ∃ a, fn p = .ok a) :
    ∃ b2, b.Board p fn = .ok (b2, true) ∧ ∃ q ∈ b2.passengers, q.SSN = p.SSN := by
  unfold Bus.Board
  cases hvt : p.HasValidTicket with
  | true =>
    rw [if_pos rfl]
    exact ⟨b.add p, rfl, p, self_mem_pstore _ _, rfl⟩
  | false =>
    rcases h with hv | ⟨a, ha⟩
    · exact absurd hv (by simp [hvt])
    · rw [if_neg (by simp [hvt]), ha, GoRes.bind_ok]
      refine ⟨b.add (p.Charge a).1, rfl, (p.Charge a).1, self_mem_pstore _ _, ?_⟩
      unfold Passenger.Charge
      split <;> rfl

/-- Claim C10 amended witness: an unticketed, well-formed passenger boards an
empty bus under workday pricing and lands in the passenger set. -/
theorem claim_C10_witness :
    ∃ b2, Bus.Board (NewBus "B") ⟨"11-22", 0, "X", false⟩ WorkdayPricing = .ok (b2, true) ∧
      ∃ q ∈ b2.passengers, q.SSN = "11-22" :=
  claim_C10_board_ok (NewBus "B") ⟨"11-22", 0, "X", false⟩ WorkdayPricing
    (Or.inr ⟨(6.0 : Rat), rfl⟩)
